import Mathlib

/-
  Verification development for the padhAI RAG server (server.py).

  The server exposes two core operations over a per-tenant FAISS index store:
  - index_folder: list files in supabase storage, download PDFs, extract page
    text, split into chunks (RecursiveCharacterTextSplitter, chunk_size=1500,
    chunk_overlap=300, separators ["\n\n", "\n", ". ", " ", ""]), embed, and
    save a FAISS index under ./data/indexes/{user_id}/{folder_name}_faiss.
  - chat: validate the query, check the index path exists, load the index,
    retrieve top chunks by similarity (k=10, fetch_k=20), and ask the LLM
    (ChatGroq, temperature 0) with a grounding prompt template.

  Text is modelled as List Char (python len() = character count), machine
  integers as Int/Nat, the on-disk store as an association list from resolved
  path segments to file contents, and collaborator behaviour (storage listing,
  PDF extraction, embedding and generation providers) as explicit parameters.
-/

set_option maxRecDepth 20000

deriving instance DecidableEq for Except

namespace PadhAI

/-- Single-quote character (ASCII 39), used to assemble the literal message
and prompt strings of server.py that contain quotes. -/
def sq : Char := Char.ofNat 39

/-- Single-quote as a one-character string. -/
def sqs : String := String.singleton sq

/-! ## Chunker: langchain RecursiveCharacterTextSplitter

server.py lines 182-187 configure
`RecursiveCharacterTextSplitter(chunk_size=1500, chunk_overlap=300,
separators=["\n\n", "\n", ". ", " ", ""])`, with the class defaults
`keep_separator=True`, `is_separator_regex=False`, `length_function=len`,
`strip_whitespace=True`. The definitions below are a faithful translation
of `langchain.text_splitter`'s `_split_text_with_regex`,
`TextSplitter._merge_splits`, `TextSplitter._join_docs` and
`RecursiveCharacterTextSplitter._split_text` at that configuration,
over `List Char`. -/

structure SplitterConfig where
  chunkSize : Nat
  chunkOverlap : Nat
  separators : List (List Char)

/-- The splitter instance constructed in server.py lines 182-186. -/
def serverSplitter : SplitterConfig :=
  { chunkSize := 1500
    chunkOverlap := 300
    separators := ["\n\n".toList, "\n".toList, ". ".toList, " ".toList, "".toList] }

/-- Substring test: models python `re.search(re.escape(sep), text)` for a
non-empty separator (and `"".isEmpty` gives the vacuous empty case). -/
def hasSub (sep : List Char) : List Char → Bool
  | [] => sep.isEmpty
  | c :: rest => sep.isPrefixOf (c :: rest) || hasSub sep rest

/-- The separator-selection loop of `RecursiveCharacterTextSplitter._split_text`:
`separator = separators[-1]`, then the first separator that is `""` or occurs
in the text wins; `new_separators` is the remainder of the list after the
winner (empty for the `""` winner). `d` is the `separators[-1]` default. -/
def chooseSepAux (d : List Char) (t : List Char) : List (List Char) → List Char × List (List Char)
  | [] => (d, [])
  | s :: rest =>
    if s = [] then ([], [])
    else if hasSub s t then (s, rest)
    else chooseSepAux d t rest

def chooseSep (seps : List (List Char)) (t : List Char) : List Char × List (List Char) :=
  chooseSepAux (seps.getLastD []) t seps

/-- Non-overlapping left-to-right split on a non-empty separator, as
`re.split` does on the escaped separator. The fuel argument is an upper
bound on the number of scanning steps (text length suffices: each step
consumes at least one character); it is never exhausted when called through
`splitOnL`. -/
def splitOnFuel (sep : List Char) : Nat → List Char → List Char → List (List Char)
  | 0, t, acc => [acc.reverse ++ t]
  | fuel + 1, t, acc =>
    match t with
    | [] => [acc.reverse]
    | c :: rest =>
      if sep ≠ [] ∧ sep.isPrefixOf (c :: rest) then
        acc.reverse :: splitOnFuel sep fuel ((c :: rest).drop sep.length) []
      else
        splitOnFuel sep fuel rest (c :: acc)

def splitOnL (sep text : List Char) : List (List Char) :=
  splitOnFuel sep (text.length + 1) text []

/-- `_split_text_with_regex(text, separator, keep_separator=True)`:
for a non-empty separator the pieces after the first keep the separator
attached at their front (`re.split` with a capture group, then pairwise
rejoin); for `""` the text is split into single characters; empty pieces
are filtered out. -/
def splitWithSep (sep text : List Char) : List (List Char) :=
  if sep = [] then
    text.map (fun c => [c])
  else
    match splitOnL sep text with
    | [] => []
    | p :: ps => (p :: ps.map (fun q => sep ++ q)).filter (fun s => s ≠ [])

/-- python `str.strip()` on the joined chunk (strip_whitespace=True). -/
def trimL (xs : List Char) : List Char :=
  ((xs.dropWhile Char.isWhitespace).reverse.dropWhile Char.isWhitespace).reverse

def intercalateL (sep : List Char) : List (List Char) → List Char
  | [] => []
  | [d] => d
  | d :: rest => d ++ sep ++ intercalateL sep rest

/-- `TextSplitter._join_docs`: join with the separator, strip whitespace,
return none for an empty result. -/
def joinDocs (sep : List Char) (docs : List (List Char)) : Option (List Char) :=
  let t := trimL (intercalateL sep docs)
  if t = [] then none else some t

/-- The inner `while` loop of `TextSplitter._merge_splits`: pop leading
members of `current_doc` while the running total exceeds the overlap, or the
next split would overflow `chunk_size`. `dLen` is the length of the incoming
split, `total` the running length of `cur` (with separators). Totals are
exact sums of the retained lengths, so Nat subtraction never truncates on
reachable states. -/
def popWhile (cs ov sepLen dLen : Nat) : Nat → List (List Char) → Nat × List (List Char)
  | total, [] => (total, [])
  | total, c :: rest =>
    if ov < total ∨ (cs < total + dLen + sepLen ∧ 0 < total) then
      popWhile cs ov sepLen dLen (total - (c.length + (if rest = [] then 0 else sepLen))) rest
    else
      (total, c :: rest)

/-- The main loop of `TextSplitter._merge_splits`: accumulate splits into
`current_doc` until adding the next one would overflow `chunk_size`; then
emit the joined doc, pop back to within the overlap, and continue. The final
`current_doc` is joined and emitted at the end. -/
def mergeLoop (cs ov sepLen : Nat) (sep : List Char) :
    List (List Char) → List (List Char) → Nat → List (List Char)
  | [], cur, _ => (joinDocs sep cur).toList
  | d :: ds, cur, total =>
    if cs < total + d.length + (if cur = [] then 0 else sepLen) then
      (if cur = [] then [] else (joinDocs sep cur).toList)
        ++ (let tc := if cur = [] then (total, cur) else popWhile cs ov sepLen d.length total cur
            mergeLoop cs ov sepLen sep ds (tc.2 ++ [d])
              (tc.1 + d.length + (if tc.2 = [] then 0 else sepLen)))
    else
      mergeLoop cs ov sepLen sep ds (cur ++ [d]) (total + d.length + (if cur = [] then 0 else sepLen))

def mergeSplits (cs ov : Nat) (sep : List Char) (splits : List (List Char)) : List (List Char) :=
  mergeLoop cs ov sep.length sep splits [] 0

/-- The split-processing loop of `_split_text`: splits shorter than
`chunk_size` are collected in `_good_splits`; on a long split the collected
run is merged and flushed, then the long split is either emitted as-is (no
separators left, `deeper = none`) or split recursively (`deeper = some r`).
With `keep_separator=True` the merge separator is `""`. -/
def flushWith (cs ov : Nat) (deeper : Option (List Char → List (List Char))) :
    List (List Char) → List (List Char) → List (List Char)
  | [], good => if good = [] then [] else mergeSplits cs ov [] good
  | s :: rest, good =>
    if s.length < cs then
      flushWith cs ov deeper rest (good ++ [s])
    else
      (if good = [] then [] else mergeSplits cs ov [] good)
        ++ (match deeper with
            | none => [s]
            | some r => r s)
        ++ flushWith cs ov deeper rest []

/-- `RecursiveCharacterTextSplitter._split_text`. The recursion descends
into a strict suffix of the separator list, so its depth is bounded by the
number of separators; `fuel` makes that bound explicit (`splitText` supplies
`separators.length + 1`, which is never exhausted). -/
def splitTextF (cs ov : Nat) : Nat → List (List Char) → List Char → List (List Char)
  | 0, _, text => [text]
  | fuel + 1, seps, text =>
    let c := chooseSep seps text
    flushWith cs ov
      (if c.2 = [] then none else some (fun s => splitTextF cs ov fuel c.2 s))
      (splitWithSep c.1 text) []

/-- `split_text` at a splitter configuration. -/
def splitText (cfg : SplitterConfig) (text : List Char) : List (List Char) :=
  splitTextF cfg.chunkSize cfg.chunkOverlap (cfg.separators.length + 1) cfg.separators text

/-- Instrumented projection of `_split_text`: the list of pieces on which
the splitter "falls through" to a harder split, i.e. the arguments of the
recursive `_split_text(s, new_separators)` calls, in order. It mirrors the
recursion structure of `splitTextF` exactly (same separator choice, same
piece split, same guard `len(s) < chunk_size`, same `new_separators = []`
test) and records `s` at each recursive call site. -/
def recursedF (cs : Nat) : Nat → List (List Char) → List Char → List (List Char)
  | 0, _, _ => []
  | fuel + 1, seps, text =>
    let c := chooseSep seps text
    ((splitWithSep c.1 text).map (fun s =>
      if s.length < cs then []
      else if c.2 = [] then []
      else s :: recursedF cs fuel c.2 s)).flatten

def recursedPieces (cs : Nat) (seps : List (List Char)) (text : List Char) : List (List Char) :=
  recursedF cs (seps.length + 1) seps text

/-! ## Documents, pages and chunks -/

/-- One extracted PDF page (PyPDFLoader yields one document per page). -/
structure Page where
  content : List Char
  source : String
  pageNum : Nat
deriving DecidableEq

/-- One chunk of split text with its source locator. -/
structure Chunk where
  text : List Char
  source : String
  pageNum : Nat
deriving DecidableEq

/-- `splitter.split_documents(docs)`: split each page's content, carrying
the page metadata onto each produced chunk. -/
def splitDocuments (cfg : SplitterConfig) (pages : List Page) : List Chunk :=
  pages.flatMap (fun pg => (splitText cfg pg.content).map (fun t => ⟨t, pg.source, pg.pageNum⟩))

/-! ## Index paths and the on-disk store

server.py builds the index location with
`os.path.join(INDEX_DIR, user_id, f"{folder_name}_faiss")` (chat, line 221)
and `os.path.join(os.path.join(INDEX_DIR, user_id), f"{folder_name}_faiss")`
(index_folder, lines 194-196), with `INDEX_DIR = "./data/indexes"`. The
filesystem resolves the resulting string: `os.path.exists`, FAISS
`save_local`/`load_local` all act on the resolved path, so `..` and `/`
inside `user_id`/`folder_name` traverse directories. We model a path as its
list of resolved segments and the store as an association list from resolved
file paths to file contents. -/

def splitSlash (s : List Char) : List (List Char) := splitOnL ['/'] s

/-- Filesystem path resolution: drop empty and `.` segments, let `..` pop
the previous segment. -/
def normalizeSegs (segs : List (List Char)) : List (List Char) :=
  segs.foldl
    (fun acc seg =>
      if seg = [] then acc
      else if seg = ['.'] then acc
      else if seg = ['.', '.'] then acc.dropLast
      else acc ++ [seg]) []

def INDEX_DIR : String := "./data/indexes"

/-- The path string both handlers build for the index directory of
`(user_id, folder_name)`. -/
def indexPathStr (user folder : String) : String :=
  INDEX_DIR ++ "/" ++ user ++ "/" ++ folder ++ "_faiss"

/-- The resolved on-disk location of the index for `(user_id, folder_name)` —
the key under which the store is actually read and written. -/
def resolvedKey (user folder : String) : List (List Char) :=
  normalizeSegs (splitSlash (indexPathStr user folder).toList)

/-- Contents of one stored file: FAISS `save_local` writes the vector file
`index.faiss` and the pickled docstore `index.pkl`. -/
inductive FileC where
  | faiss (vecs : List (List Int))
  | pkl (chunks : List Chunk)
deriving DecidableEq

abbrev FS := List (List (List Char) × FileC)

def faissFile : List Char := "index.faiss".toList
def pklFile : List Char := "index.pkl".toList

def fsLookup (fs : FS) (p : List (List Char)) : Option FileC :=
  (fs.find? (fun e => e.1 == p)).map (fun e => e.2)

def fsInsert (fs : FS) (p : List (List Char)) (c : FileC) : FS := (p, c) :: fs

/-- `os.path.exists` on a directory: some stored file lies under it. -/
def pathExists (fs : FS) (p : List (List Char)) : Bool :=
  fs.any (fun e => p.isPrefixOf e.1)

/-! ## Retriever

`vectorstore.as_retriever(search_type="similarity",
search_kwargs={"k": 10, "fetch_k": 20})` (server.py lines 235-241) routes a
query through langchain FAISS `similarity_search(query, k=10, filter=None,
fetch_k=20)`, which embeds the query, runs
`index.search(v, k if filter is None else fetch_k)` on the IndexFlatL2
structure (k smallest squared L2 distances, ties by insertion order) and
returns `docs[:k]`. Embeddings are modelled as Int vectors, the index as
the positionally aligned (chunk, vector) list stored by `save_local`. -/

def dist (q v : List Int) : Int :=
  ((q.zip v).map (fun pr => (pr.1 - pr.2) * (pr.1 - pr.2))).sum

/-- Stable insertion behind strictly closer entries: equal distances keep
insertion order, matching FAISS result ordering. -/
def insertByDist (q : List Int) (e : Chunk × List Int) :
    List (Chunk × List Int) → List (Chunk × List Int)
  | [] => [e]
  | x :: xs => if dist q e.2 < dist q x.2 then e :: x :: xs else x :: insertByDist q e xs

def sortByDist (q : List Int) : List (Chunk × List Int) → List (Chunk × List Int)
  | [] => []
  | x :: xs => insertByDist q x (sortByDist q xs)

/-- langchain FAISS `similarity_search_with_score_by_vector` followed by the
`docs[:k]` cut: the flat index is searched for the `k` (no filter) or
`fetch_k` (with filter) nearest entries, then the first `k` are returned. -/
def similaritySearch (k fetchK : Nat) (filt : Option Unit)
    (entries : List (Chunk × List Int)) (q : List Int) : List Chunk :=
  (((sortByDist q entries).take (if filt.isSome then fetchK else k)).take k).map Prod.fst

/-- The `search_kwargs={"k": 10, "fetch_k": 20}` of server.py line 237-240. -/
def serverSearchKw : Nat × Nat := (10, 20)

/-- The retriever exactly as configured by the chat handler: similarity
search, no filter, k = 10, fetch_k = 20. -/
def serverRetriever (entries : List (Chunk × List Int)) (q : List Int) : List Chunk :=
  similaritySearch serverSearchKw.1 serverSearchKw.2 none entries q

/-- Modelled from the spec: the two-stage retrieval contract of section 4.5 —
take the top `fetch_k` candidates by similarity, then return the top `k` of
those (the second stage being a strict top-k cut by score). Stated here to
be compared with `serverRetriever`. -/
def twoStageRetrieve (k fetchK : Nat) (entries : List (Chunk × List Int))
    (q : List Int) : List Chunk :=
  (((sortByDist q entries).take fetchK).take k).map Prod.fst

/-! ## Answer synthesis

The prompt template of server.py lines 254-270, the "stuff" chain context
(retrieved chunk texts joined by a blank line, langchain's default document
separator and `{page_content}` document prompt), and the ChatGroq
configuration of lines 244-251. -/

/-- The fixed insufficiency sentinel the template tells the model to emit. -/
def sentinelText : String :=
  "I don" ++ sqs ++ "t have enough information in your documents to answer this question."

/-- Instruction 1 of the template: answer from the supplied context only. -/
def onlyContextInstr : String := "Answer based ONLY on the provided context"

def promptPre : String :=
  "You are an expert AI tutor helping students understand their study materials. \nUse the following context from the student" ++ sqs
    ++ "s documents to answer their question accurately and comprehensively.\n\nContext from documents:\n"

def promptMid : String := "\n\nStudent" ++ sqs ++ "s Question: "

def promptPost1 : String := "\n\nInstructions:\n1. "

def promptPost2 : String := "\n2. If the answer isn" ++ sqs ++ "t in the context, say \""

def promptPost3 : String :=
  "\"\n3. Cite specific details from the context when possible\n4. Explain concepts clearly and break down complex topics\n5. Use examples from the documents if available\n6. If relevant, mention which part of the document the information comes from\n\nAnswer:"

/-- Everything of the template after the `question` placeholder. -/
def promptPost : List Char :=
  promptPost1.toList ++ onlyContextInstr.toList ++ promptPost2.toList
    ++ sentinelText.toList ++ promptPost3.toList

/-- The PromptTemplate of lines 254-275 rendered with the stuffed context
and the question substituted for their placeholders. -/
def renderPrompt (ctx q : List Char) : List Char :=
  promptPre.toList ++ ctx ++ promptMid.toList ++ q ++ promptPost

/-- The "stuff" chain's `{context}`: retrieved chunk texts joined by the
default document separator (a blank line). -/
def stuffContext (chunks : List Chunk) : List Char :=
  intercalateL "\n\n".toList (chunks.map Chunk.text)

/-- The ChatGroq construction of lines 244-251. -/
structure GroqConfig where
  modelName : String
  temperature : Nat
  maxRetries : Nat

def serverLLM : GroqConfig := ⟨"deepseek-r1-distill-llama-70b", 0, 2⟩

/-! ## The chat handler (server.py lines 209-295) -/

structure HTTPError where
  status : Nat
  detail : String
deriving DecidableEq

/-- Provider calls a chat request performs, in order. Constructing the
embeddings client, loading the FAISS files and constructing ChatGroq make no
provider calls; `qa.run` embeds the query and then invokes the LLM. -/
inductive Effect where
  | embedQuery (q : String)
  | llmCall (prompt : List Char)
deriving DecidableEq

structure ChatResp where
  answer : String
  folder : String
  userId : String
deriving DecidableEq

def queryRequiredMsg : String := "Query text is required"

def notIndexedMsg (folder : String) : String :=
  "Folder " ++ sqs ++ folder ++ sqs ++ " not indexed yet. Please index it first."

def chatErrMsg (m : String) : String := "Error processing chat: " ++ m

/-- `FAISS.load_local`: read the vector file and the pickled docstore at the
resolved index path and align them positionally. -/
def loadEntries (fs : FS) (key : List (List Char)) : Option (List (Chunk × List Int)) :=
  match fsLookup fs (key ++ [faissFile]), fsLookup fs (key ++ [pklFile]) with
  | some (.faiss vecs), some (.pkl chunks) => some (chunks.zip vecs)
  | _, _ => none

/-- The chunks the chat handler's retriever returns for a request — the
retrieval sub-computation of `chat`, exposed for stating isolation. -/
def chatRetrieved (fs : FS) (user folder query : String)
    (embedQ : String → List Int) : List Chunk :=
  match loadEntries fs (resolvedKey user folder) with
  | some entries => serverRetriever entries (embedQ query)
  | none => []

/-- The `/chat` handler. `embedQ` is the embedding provider's query
embedding, `llm` the generation provider. Returns the HTTP result and the
list of provider calls made. Mirrors server.py lines 209-295: empty-query
check (400), `os.path.exists` check on the resolved index path (404), then
inside the try block: load the index, retrieve, render the prompt, call the
LLM; any exception in the try block is re-raised as a 500. -/
def chat (fs : FS) (user folder query : String) (embedQ : String → List Int)
    (llm : List Char → String) : Except HTTPError ChatResp × List Effect :=
  if query = "" then
    (.error ⟨400, queryRequiredMsg⟩, [])
  else if pathExists fs (resolvedKey user folder) = false then
    (.error ⟨404, notIndexedMsg folder⟩, [])
  else
    match loadEntries fs (resolvedKey user folder) with
    | none => (.error ⟨500, chatErrMsg "failed to load index files"⟩, [])
    | some entries =>
      let retrieved := serverRetriever entries (embedQ query)
      let prompt := renderPrompt (stuffContext retrieved) query.toList
      (.ok ⟨llm prompt, folder, user⟩, [.embedQuery query, .llmCall prompt])

/-! ## The index_folder handler (server.py lines 113-206)

Collaborators are passed explicitly: `listing` is what
`supabase.storage.list` returned, `extract` gives the page texts PyPDFLoader
produces for a downloaded file, `embedDoc` the embedding provider. `failAt`
injects a collaborator/system failure at a chosen step (or `none` for no
injected failure); `midSave` is a crash after `save_local` has written
`index.faiss` but before it writes `index.pkl`. -/

structure FileObj where
  name : String
  oid : Option Nat
deriving DecidableEq

inductive FailPoint where
  | listFiles
  | download (i : Nat)
  | embedCall
  | midSave
deriving DecidableEq

/-- A python exception: an HTTPException or any other exception. -/
inductive Exc where
  | http (status : Nat) (detail : String)
  | py (msg : String)
deriving DecidableEq

/-- `str(e)`: for a fastapi HTTPException this is "<status>: <detail>". -/
def excStr : Exc → String
  | .http st d => toString st ++ ": " ++ d
  | .py m => m

structure BuildResp where
  statusStr : String
  folder : String
  filesProcessed : Nat
  chunksCreated : Nat
deriving DecidableEq

def noFilesMsg (user folder : String) : String :=
  "No files found in folder " ++ sqs ++ folder ++ sqs ++ ". Path checked: "
    ++ user ++ "/" ++ folder ++ ". Make sure files are uploaded to the correct location."

def noPdfMsg (folder : String) : String :=
  "No PDF files found in folder " ++ sqs ++ folder ++ sqs

def noContentMsg : String := "No content extracted from PDFs"

/-- `f.get("name", "").lower().endswith(".pdf")`. -/
def isPdfName (s : String) : Bool :=
  (".pdf".toList).isSuffixOf (s.toList.map Char.toLower)

def pdfsOf (listing : List FileObj) : List FileObj :=
  listing.filter (fun f => isPdfName f.name)

/-- The pages PyPDFLoader yields for one downloaded file. -/
def pagesOf (extract : String → List (List Char)) (f : FileObj) : List Page :=
  (extract f.name).enum.map (fun pe => ⟨pe.2, f.name, pe.1⟩)

/-- The accumulated `docs` of the download loop on the happy path
(placeholder entries are skipped). -/
def docsOf (extract : String → List (List Char)) : List FileObj → List Page
  | [] => []
  | f :: rest =>
    (if f.name = ".placeholder" then [] else pagesOf extract f) ++ docsOf extract rest

/-- The download-and-extract loop of lines 153-174, with failure injection:
a failed download or PDF load raises out of the loop. -/
def downloadAll (extract : String → List (List Char)) (failAt : Option FailPoint) :
    List FileObj → Nat → Except Exc (List Page)
  | [], _ => .ok []
  | f :: rest, i =>
    if f.name = ".placeholder" then downloadAll extract failAt rest (i + 1)
    else if failAt = some (.download i) then .error (.py "download failed")
    else
      match downloadAll extract failAt rest (i + 1) with
      | .error e => .error e
      | .ok ds => .ok (pagesOf extract f ++ ds)

/-- The chunks a build over `listing`/`extract` produces (the value of
`chunks` at line 187 when the pipeline reaches it). -/
def builtChunks (listing : List FileObj) (extract : String → List (List Char)) : List Chunk :=
  splitDocuments serverSplitter (docsOf extract (pdfsOf listing))

/-- The body of the index_folder try block (lines 121-203). Returns the
inner outcome and the resulting store. Store writes model FAISS
`save_local`: `index.faiss` is written in place, then `index.pkl` — there
is no staging location or rename. An empty chunk list reaches
`FAISS.from_documents`, which raises an IndexError
("list index out of range") before anything is written. -/
def indexFolderBody (fs : FS) (user folder : String) (listing : List FileObj)
    (extract : String → List (List Char)) (embedDoc : List Char → List Int)
    (failAt : Option FailPoint) : Except Exc BuildResp × FS :=
  if failAt = some FailPoint.listFiles then (.error (.py "storage listing failed"), fs)
  else if listing.isEmpty then (.error (.http 404 (noFilesMsg user folder)), fs)
  else if (pdfsOf listing).isEmpty then (.error (.http 404 (noPdfMsg folder)), fs)
  else
    match downloadAll extract failAt (pdfsOf listing) 0 with
    | .error e => (.error e, fs)
    | .ok docs =>
      if docs.isEmpty then (.error (.http 400 noContentMsg), fs)
      else if (splitDocuments serverSplitter docs).isEmpty then
        (.error (.py "list index out of range"), fs)
      else if failAt = some FailPoint.embedCall then
        (.error (.py "embedding provider failure"), fs)
      else
        let chunks := splitDocuments serverSplitter docs
        let key := resolvedKey user folder
        let fs1 := fsInsert fs (key ++ [faissFile]) (.faiss (chunks.map (fun c => embedDoc c.text)))
        if failAt = some FailPoint.midSave then (.error (.py "disk failure during save"), fs1)
        else
          (.ok ⟨"indexed", folder, (pdfsOf listing).length, chunks.length⟩,
            fsInsert fs1 (key ++ [pklFile]) (.pkl chunks))

def errWrapMsg (e : Exc) : String := "Error indexing folder: " ++ excStr e

/-- The `/index_folder` handler: the try body, with the catch-all
`except Exception as e: raise HTTPException(500, f"Error indexing folder:
{str(e)}")` of lines 205-206 — which also catches the HTTPExceptions raised
inside the try block and re-raises them as 500. -/
def indexFolder (fs : FS) (user folder : String) (listing : List FileObj)
    (extract : String → List (List Char)) (embedDoc : List Char → List Int)
    (failAt : Option FailPoint) : Except HTTPError BuildResp × FS :=
  match indexFolderBody fs user folder listing extract embedDoc failAt with
  | (.ok r, fs2) => (.ok r, fs2)
  | (.error e, fs2) => (.error ⟨500, errWrapMsg e⟩, fs2)

def isErr {α β : Type} : Except α β → Bool
  | .error _ => true
  | .ok _ => false

/-! ## Concurrency model for builds

The index_folder handler contains no synchronization: its effectful steps
are listing, downloads and the two file writes, with no lock acquisition
anywhere in server.py (no Build Coordinator exists). `BuildAction` includes
a `lockAcquire` action so its absence from the handler's trace is a
statement, and `stepA` gives lock acquisition single-flight semantics (a
second acquisition of a held key fails the process with
`buildInProgress`). `run2` interleaves two builds under a boolean
schedule (`true` steps the first process), finishing any remainder
sequentially. -/

inductive BuildAction where
  | lockAcquire (key : List (List Char))
  | listFiles
  | download (name : String)
  | writeFile (path : List (List Char)) (c : FileC)
deriving DecidableEq

structure World where
  wfs : FS
  locks : List (List (List Char))
deriving DecidableEq

inductive BuildOutcome where
  | indexed
  | buildInProgress
deriving DecidableEq

def stepA (w : World) : BuildAction → World × Option BuildOutcome
  | .lockAcquire k =>
    if k ∈ w.locks then (w, some .buildInProgress)
    else (⟨w.wfs, k :: w.locks⟩, none)
  | .listFiles => (w, none)
  | .download _ => (w, none)
  | .writeFile p c => (⟨fsInsert w.wfs p c, w.locks⟩, none)

def runOne (w : World) : List BuildAction → World × BuildOutcome
  | [] => (w, .indexed)
  | a :: rest =>
    match stepA w a with
    | (w2, none) => runOne w2 rest
    | (w2, some o) => (w2, o)

def run2 (w : World) : List Bool → List BuildAction → List BuildAction →
    World × BuildOutcome × BuildOutcome
  | [], pa, pb =>
    ((runOne ((runOne w pa).1) pb).1, (runOne w pa).2, (runOne ((runOne w pa).1) pb).2)
  | true :: s, [], pb => run2 w s [] pb
  | true :: s, a :: pa, pb =>
    match stepA w a with
    | (w2, none) => run2 w2 s pa pb
    | (w2, some o) => ((runOne w2 pb).1, o, (runOne w2 pb).2)
  | false :: s, pa, [] => run2 w s pa []
  | false :: s, pa, b :: pb =>
    match stepA w b with
    | (w2, none) => run2 w2 s pa pb
    | (w2, some o) => ((runOne w2 pa).1, (runOne w2 pa).2, o)

/-- The effectful action trace of one index_folder request on the happy
path (lines 128, 161, 196): list the folder, download each PDF, write the
two index files. No lock action occurs anywhere in the handler. -/
def buildActions (user folder : String) (pdfNames : List String)
    (vecs : List (List Int)) (chunks : List Chunk) : List BuildAction :=
  BuildAction.listFiles :: (pdfNames.map BuildAction.download
    ++ [BuildAction.writeFile (resolvedKey user folder ++ [faissFile]) (.faiss vecs),
        BuildAction.writeFile (resolvedKey user folder ++ [pklFile]) (.pkl chunks)])

/-! ## Concrete inputs used by the counterexamples and witnesses -/

def exEmpty : String → List (List Char) := fun _ => []

def evZero : List Char → List Int := fun _ => [0]

def eqZero : String → List Int := fun _ => [0]

def llmEcho : List Char → String := fun _ => "ok"

def bobChunk : Chunk := ⟨"bob secret notes".toList, "secret.pdf", 0⟩

def bobKey : List (List Char) := resolvedKey "bob" "notes"

/-- A store holding only tenant bob's committed index for collection
"notes". -/
def fsBob : FS :=
  [(bobKey ++ [faissFile], .faiss [[0]]), (bobKey ++ [pklFile], .pkl [bobChunk])]

def traversalFolder : String := "../bob/notes"

def oldChunk : Chunk := ⟨"old".toList, "old.pdf", 0⟩

def c2Key : List (List Char) := resolvedKey "carol" "docs"

/-- A store holding a previously committed, consistent index for
("carol", "docs"). -/
def fsOld : FS :=
  [(c2Key ++ [faissFile], .faiss [[9]]), (c2Key ++ [pklFile], .pkl [oldChunk])]

def c2Listing : List FileObj := [⟨"a.pdf", some 1⟩]

def c2Extract : String → List (List Char) := fun _ => ["hello".toList]

def c5Extract : String → List (List Char) := fun _ => [[]]

def c3Acts : List BuildAction := buildActions "u" "docs" ["a.pdf"] [[0]] [oldChunk]

def c3Sched : List Bool := [true, false, true, false, true, false, true, false]

def c7piece : List Char := List.replicate 1500 'a'

def c7text : List Char := c7piece ++ '\n' :: '\n' :: ['b']

def wChunk : Chunk := ⟨"alpha".toList, "a.pdf", 0⟩

/-! ## Helper lemmas -/

theorem recursedF_ge (cs : Nat) :
    ∀ (fuel : Nat) (seps : List (List Char)) (text p : List Char),
      p ∈ recursedF cs fuel seps text → cs ≤ p.length := by
  intro fuel
  induction fuel with
  | zero => intro seps text p hp; simp [recursedF] at hp
  | succ f ih =>
    intro seps text p hp
    simp only [recursedF, List.mem_flatten, List.mem_map] at hp
    obtain ⟨l, ⟨s, hs, hl⟩, hpl⟩ := hp
    subst hl
    by_cases h1 : s.length < cs
    · rw [if_pos h1] at hpl; simp at hpl
    · rw [if_neg h1] at hpl
      by_cases h2 : (chooseSep seps text).2 = []
      · rw [if_pos h2] at hpl; simp at hpl
      · rw [if_neg h2] at hpl
        rcases List.mem_cons.mp hpl with hps | hrec
        · subst hps; omega
        · exact ih _ _ _ hrec

theorem mem_intercalateL (sep : List Char) :
    ∀ (l : List (List Char)) (x : List Char), x ∈ l →
      ∃ p s, intercalateL sep l = p ++ x ++ s := by
  intro l
  induction l with
  | nil => intro x hx; simp at hx
  | cons d rest ih =>
    intro x hx
    rcases List.mem_cons.mp hx with hxd | hxr
    · subst hxd
      cases rest with
      | nil => exact ⟨[], [], by simp [intercalateL]⟩
      | cons r rs => exact ⟨[], sep ++ intercalateL sep (r :: rs), by simp [intercalateL]⟩
    · have hne : rest ≠ [] := List.ne_nil_of_mem hxr
      obtain ⟨p, s, hp⟩ := ih x hxr
      cases rest with
      | nil => simp at hxr
      | cons r rs =>
        exact ⟨d ++ sep ++ p, s, by simp [intercalateL, hp]⟩

theorem indexFolder_snd (fs : FS) (user folder : String) (listing : List FileObj)
    (extract : String → List (List Char)) (embedDoc : List Char → List Int)
    (failAt : Option FailPoint) :
    (indexFolder fs user folder listing extract embedDoc failAt).2 =
      (indexFolderBody fs user folder listing extract embedDoc failAt).2 := by
  unfold indexFolder
  cases h : indexFolderBody fs user folder listing extract embedDoc failAt with
  | mk r fs2 => cases r <;> simp

theorem indexFolder_isErr (fs : FS) (user folder : String) (listing : List FileObj)
    (extract : String → List (List Char)) (embedDoc : List Char → List Int)
    (failAt : Option FailPoint) :
    isErr (indexFolder fs user folder listing extract embedDoc failAt).1 =
      isErr (indexFolderBody fs user folder listing extract embedDoc failAt).1 := by
  unfold indexFolder
  cases h : indexFolderBody fs user folder listing extract embedDoc failAt with
  | mk r fs2 => cases r <;> simp [isErr]

theorem body_store (fs : FS) (user folder : String) (listing : List FileObj)
    (extract : String → List (List Char)) (embedDoc : List Char → List Int)
    (failAt : Option FailPoint) (hmid : failAt ≠ some FailPoint.midSave) :
    (indexFolderBody fs user folder listing extract embedDoc failAt).2 = fs ∨
      ∃ r, (indexFolderBody fs user folder listing extract embedDoc failAt).1 = Except.ok r := by
  unfold indexFolderBody
  by_cases h1 : failAt = some FailPoint.listFiles
  · rw [if_pos h1]; exact Or.inl rfl
  rw [if_neg h1]
  by_cases h2 : listing.isEmpty = true
  · rw [if_pos h2]; exact Or.inl rfl
  rw [if_neg h2]
  by_cases h3 : (pdfsOf listing).isEmpty = true
  · rw [if_pos h3]; exact Or.inl rfl
  rw [if_neg h3]
  cases hd : downloadAll extract failAt (pdfsOf listing) 0 with
  | error e => exact Or.inl rfl
  | ok docs =>
    dsimp only
    by_cases h4 : docs.isEmpty = true
    · rw [if_pos h4]; exact Or.inl rfl
    rw [if_neg h4]
    by_cases h5 : (splitDocuments serverSplitter docs).isEmpty = true
    · rw [if_pos h5]; exact Or.inl rfl
    rw [if_neg h5]
    by_cases h6 : failAt = some FailPoint.embedCall
    · rw [if_pos h6]; exact Or.inl rfl
    rw [if_neg h6]
    simp only [if_neg hmid]
    exact Or.inr ⟨_, rfl⟩

theorem downloadAll_ok (extract : String → List (List Char)) (failAt : Option FailPoint) :
    ∀ (l : List FileObj) (i : Nat) (ds : List Page),
      downloadAll extract failAt l i = .ok ds → ds = docsOf extract l := by
  intro l
  induction l with
  | nil =>
    intro i ds h
    simp only [downloadAll] at h
    injection h with h
    simp [docsOf, ← h]
  | cons f rest ih =>
    intro i ds h
    simp only [downloadAll] at h
    by_cases hp : f.name = ".placeholder"
    · rw [if_pos hp] at h
      have := ih _ _ h
      simp [docsOf, hp, this]
    · rw [if_neg hp] at h
      by_cases hf : failAt = some (FailPoint.download i)
      · rw [if_pos hf] at h; cases h
      · rw [if_neg hf] at h
        cases hd : downloadAll extract failAt rest (i + 1) with
        | error e => rw [hd] at h; cases h
        | ok ds2 =>
          rw [hd] at h
          injection h with h
          have := ih _ _ hd
          simp [docsOf, hp, ← h, this]

theorem stepA_none (w : World) (a : BuildAction)
    (h : ∀ k, a ≠ BuildAction.lockAcquire k) : (stepA w a).2 = none := by
  cases a with
  | lockAcquire k => exact absurd rfl (h k)
  | listFiles => rfl
  | download n => rfl
  | writeFile p c => rfl

theorem runOne_indexed :
    ∀ (l : List BuildAction) (w : World),
      (∀ k, BuildAction.lockAcquire k ∉ l) → (runOne w l).2 = BuildOutcome.indexed := by
  intro l
  induction l with
  | nil => intro w _; rfl
  | cons a rest ih =>
    intro w h
    have ha : ∀ k, a ≠ BuildAction.lockAcquire k := by
      intro k hk
      exact h k (by rw [← hk]; exact List.mem_cons_self a rest)
    have hrest : ∀ k, BuildAction.lockAcquire k ∉ rest :=
      fun k hk => h k (List.mem_cons_of_mem _ hk)
    have h2 := stepA_none w a ha
    simp only [runOne]
    cases hs : stepA w a with
    | mk w2 o =>
      rw [hs] at h2
      simp only at h2
      subst h2
      exact ih w2 hrest

theorem run2_indexed :
    ∀ (sched : List Bool) (pa pb : List BuildAction) (w : World),
      (∀ k, BuildAction.lockAcquire k ∉ pa) → (∀ k, BuildAction.lockAcquire k ∉ pb) →
      (run2 w sched pa pb).2 = (BuildOutcome.indexed, BuildOutcome.indexed) := by
  intro sched
  induction sched with
  | nil =>
    intro pa pb w hpa hpb
    simp only [run2]
    rw [runOne_indexed pa w hpa, runOne_indexed pb _ hpb]
  | cons c s ih =>
    intro pa pb w hpa hpb
    cases c with
    | true =>
      cases pa with
      | nil => simp only [run2]; exact ih [] pb w (by simp) hpb
      | cons a pa2 =>
        have ha : ∀ k, a ≠ BuildAction.lockAcquire k := by
          intro k hk
          exact hpa k (by rw [← hk]; exact List.mem_cons_self a pa2)
        have hrest : ∀ k, BuildAction.lockAcquire k ∉ pa2 :=
          fun k hk => hpa k (List.mem_cons_of_mem _ hk)
        have h2 := stepA_none w a ha
        simp only [run2]
        cases hs : stepA w a with
        | mk w2 o =>
          rw [hs] at h2
          simp only at h2
          subst h2
          exact ih pa2 pb w2 hrest hpb
    | false =>
      cases pb with
      | nil => simp only [run2]; exact ih pa [] w hpa (by simp)
      | cons b pb2 =>
        have hb : ∀ k, b ≠ BuildAction.lockAcquire k := by
          intro k hk
          exact hpb k (by rw [← hk]; exact List.mem_cons_self b pb2)
        have hrest : ∀ k, BuildAction.lockAcquire k ∉ pb2 :=
          fun k hk => hpb k (List.mem_cons_of_mem _ hk)
        have h2 := stepA_none w b hb
        simp only [run2]
        cases hs : stepA w b with
        | mk w2 o =>
          rw [hs] at h2
          simp only at h2
          subst h2
          exact ih pa pb2 w2 hpa hrest

theorem noLock_buildActions (user folder : String) (names : List String)
    (vecs : List (List Int)) (chunks : List Chunk) :
    ∀ k, BuildAction.lockAcquire k ∉ buildActions user folder names vecs chunks := by
  intro k hk
  simp [buildActions] at hk

set_option maxRecDepth 200000 in
theorem c7_mem :
    c7piece ∈ recursedPieces serverSplitter.chunkSize serverSplitter.separators c7text := by
  decide

/-! ## Claim theorems -/

/-- C1: the claim says every chunk a chat request retrieves originates from
the index stored under the requesting tenant's own (tenant, collection) key,
for any value of folder_name. The code violates this: folder_name is
spliced into the filesystem path unsanitized, so tenant "alice" asking for
folder "../bob/notes" resolves to tenant bob's index path, passes the
existence check, and the retriever returns bob's chunks, which feed the
answer. This theorem evaluates the chat handler at that failing input. -/
theorem c1_path_traversal_leaks_other_tenant :
    resolvedKey "alice" traversalFolder = resolvedKey "bob" "notes" ∧
    chatRetrieved fsBob "alice" traversalFolder "what" eqZero = [bobChunk] ∧
    (chat fsBob "alice" traversalFolder "what" eqZero llmEcho).1 =
      Except.ok ⟨"ok", traversalFolder, "alice"⟩ ∧
    "alice" ≠ "bob" := by
  decide

/-- C2 counterexample: a build for ("carol", "docs") that crashes between
the two in-place file writes of save_local leaves the store mutated (the
vector file now holds the new vectors) while the docstore file still holds
the old chunks: the previously committed index is not left byte-identical,
and the readable state is inconsistent — there is no staging location or
rename. -/
theorem c2_counterexample :
    isErr (indexFolder fsOld "carol" "docs" c2Listing c2Extract evZero
      (some FailPoint.midSave)).1 = true ∧
    (indexFolder fsOld "carol" "docs" c2Listing c2Extract evZero
      (some FailPoint.midSave)).2 ≠ fsOld ∧
    fsLookup (indexFolder fsOld "carol" "docs" c2Listing c2Extract evZero
      (some FailPoint.midSave)).2 (c2Key ++ [faissFile]) = some (FileC.faiss [[0]]) ∧
    fsLookup fsOld (c2Key ++ [faissFile]) = some (FileC.faiss [[9]]) ∧
    fsLookup (indexFolder fsOld "carol" "docs" c2Listing c2Extract evZero
      (some FailPoint.midSave)).2 (c2Key ++ [pklFile]) = some (FileC.pkl [oldChunk]) := by
  decide

/-- C2 (amended): a build that fails at any step before save_local starts
writing the index files leaves the store — and hence the previously
committed index at the key — unchanged; only a failure between the two
in-place file writes can mutate it. -/
theorem c2_prefail_store_unchanged (fs : FS) (user folder : String)
    (listing : List FileObj) (extract : String → List (List Char))
    (embedDoc : List Char → List Int) (failAt : Option FailPoint)
    (hmid : failAt ≠ some FailPoint.midSave)
    (herr : isErr (indexFolder fs user folder listing extract embedDoc failAt).1 = true) :
    (indexFolder fs user folder listing extract embedDoc failAt).2 = fs := by
  rw [indexFolder_snd]
  rcases body_store fs user folder listing extract embedDoc failAt hmid with h | ⟨r, hr⟩
  · exact h
  · rw [indexFolder_isErr, hr] at herr
    simp [isErr] at herr

/-- C2 witness: a build whose storage listing fails (a pre-save failure)
errors out and leaves an empty store empty. -/
theorem c2_witness :
    (some FailPoint.listFiles ≠ some FailPoint.midSave) ∧
    isErr (indexFolder [] "u" "d" c2Listing c2Extract evZero (some FailPoint.listFiles)).1 = true ∧
    (indexFolder [] "u" "d" c2Listing c2Extract evZero (some FailPoint.listFiles)).2 = [] :=
  ⟨by decide, by decide,
    c2_prefail_store_unchanged [] "u" "d" c2Listing c2Extract evZero
      (some FailPoint.listFiles) (by decide) (by decide)⟩

/-- C3 counterexample: two build requests for the same key ("u", "docs"),
interleaved step by step under an alternating schedule, both run to
completion with the indexed outcome; neither fails with
BuildInProgressError — the handler acquires no lock. -/
theorem c3_counterexample :
    (run2 ⟨[], []⟩ c3Sched c3Acts c3Acts).2 =
      (BuildOutcome.indexed, BuildOutcome.indexed) ∧
    (run2 ⟨[], []⟩ c3Sched c3Acts c3Acts).2.1 ≠ BuildOutcome.buildInProgress ∧
    (run2 ⟨[], []⟩ c3Sched c3Acts c3Acts).2.2 ≠ BuildOutcome.buildInProgress := by
  decide

/-- C3 (amended): the index_folder handler performs no lock acquisition —
server.py has no Build Coordinator — so under every interleaving two
concurrent builds for the same key both run and both complete with the
indexed outcome; neither fails with BuildInProgressError. -/
theorem c3_no_lock_both_builds_complete (user folder : String)
    (names1 names2 : List String) (vecs1 vecs2 : List (List Int))
    (chunks1 chunks2 : List Chunk) (w : World) (sched : List Bool) :
    (∀ k, BuildAction.lockAcquire k ∉ buildActions user folder names1 vecs1 chunks1) ∧
    (run2 w sched (buildActions user folder names1 vecs1 chunks1)
        (buildActions user folder names2 vecs2 chunks2)).2 =
      (BuildOutcome.indexed, BuildOutcome.indexed) :=
  ⟨noLock_buildActions user folder names1 vecs1 chunks1,
    run2_indexed sched _ _ w (noLock_buildActions user folder names1 vecs1 chunks1)
      (noLock_buildActions user folder names2 vecs2 chunks2)⟩

/-- C4: the claim says each failing core operation surfaces an error kind
that distinguishes its cause and no kind is collapsed. The code violates
it: the HTTPException(404, "No files found...") raised inside the try
block of index_folder is caught by the catch-all `except Exception` of
lines 205-206 and re-raised as a generic 500 whose detail merely embeds
the string "404: ...", so the not-found kind is collapsed. This theorem
evaluates the handler at an empty storage listing. -/
theorem c4_notfound_collapsed_to_500 :
    (indexFolder [] "alice" "notes" [] exEmpty evZero none).1 =
      Except.error ⟨500, errWrapMsg (Exc.http 404 (noFilesMsg "alice" "notes"))⟩ ∧
    (indexFolder [] "alice" "notes" [] exEmpty evZero none).1 ≠
      Except.error ⟨404, noFilesMsg "alice" "notes"⟩ ∧
    (500 : Nat) ≠ 404 := by
  decide

/-- C5 counterexample: a build whose single PDF extracts one empty page
yields zero chunks; the code does not fail with an EmptyCorpusError kind —
the empty chunk list reaches FAISS.from_documents, which raises an
IndexError that the catch-all turns into a generic 500 ("list index out of
range"), not the 400 "No content extracted from PDFs" kind; the store is
left untouched. -/
theorem c5_counterexample :
    builtChunks c2Listing c5Extract = [] ∧
    (indexFolder fsOld "carol" "docs" c2Listing c5Extract evZero none).1 =
      Except.error ⟨500, errWrapMsg (Exc.py "list index out of range")⟩ ∧
    (indexFolder fsOld "carol" "docs" c2Listing c5Extract evZero none).1 ≠
      Except.error ⟨400, noContentMsg⟩ ∧
    (indexFolder fsOld "carol" "docs" c2Listing c5Extract evZero none).2 = fsOld := by
  decide

/-- C5 (amended): every build whose documents yield a combined chunk count
of zero fails, writes nothing to the index store, and leaves any previously
committed index at the key untouched — though the surfaced error is a
generic 500, not a distinct EmptyCorpusError kind. -/
theorem c5_zero_chunks_fails_writes_nothing (fs : FS) (user folder : String)
    (listing : List FileObj) (extract : String → List (List Char))
    (embedDoc : List Char → List Int) (failAt : Option FailPoint)
    (hch : builtChunks listing extract = []) :
    isErr (indexFolder fs user folder listing extract embedDoc failAt).1 = true ∧
    (indexFolder fs user folder listing extract embedDoc failAt).2 = fs := by
  rw [indexFolder_isErr, indexFolder_snd]
  unfold indexFolderBody
  by_cases h1 : failAt = some FailPoint.listFiles
  · rw [if_pos h1]; exact ⟨rfl, rfl⟩
  rw [if_neg h1]
  by_cases h2 : listing.isEmpty = true
  · rw [if_pos h2]; exact ⟨rfl, rfl⟩
  rw [if_neg h2]
  by_cases h3 : (pdfsOf listing).isEmpty = true
  · rw [if_pos h3]; exact ⟨rfl, rfl⟩
  rw [if_neg h3]
  cases hd : downloadAll extract failAt (pdfsOf listing) 0 with
  | error e => exact ⟨rfl, rfl⟩
  | ok docs =>
    dsimp only
    have hdocs := downloadAll_ok extract failAt (pdfsOf listing) 0 docs hd
    subst hdocs
    have hempty : (splitDocuments serverSplitter (docsOf extract (pdfsOf listing))).isEmpty = true := by
      have : splitDocuments serverSplitter (docsOf extract (pdfsOf listing)) =
          builtChunks listing extract := rfl
      rw [this, hch]
      rfl
    by_cases h4 : (docsOf extract (pdfsOf listing)).isEmpty = true
    · rw [if_pos h4]; exact ⟨rfl, rfl⟩
    · rw [if_neg h4, if_pos hempty]; exact ⟨rfl, rfl⟩

/-- C5 witness: a build over an empty listing has zero chunks, fails, and
leaves the empty store empty. -/
theorem c5_witness :
    builtChunks [] exEmpty = [] ∧
    isErr (indexFolder [] "u" "d" [] exEmpty evZero none).1 = true ∧
    (indexFolder [] "u" "d" [] exEmpty evZero none).2 = [] :=
  ⟨by decide,
    (c5_zero_chunks_fails_writes_nothing [] "u" "d" [] exEmpty evZero none (by decide)).1,
    (c5_zero_chunks_fails_writes_nothing [] "u" "d" [] exEmpty evZero none (by decide)).2⟩

/-- C6 counterexample: a chat request with an empty question against a key
with no index answers 400 "Query text is required", not the 404 "not
indexed" signal — the empty-query check precedes the index-existence
check, so the claim's "every chat request" quantification fails. -/
theorem c6_counterexample :
    chat [] "u" "f" "" eqZero llmEcho = (Except.error ⟨400, queryRequiredMsg⟩, []) ∧
    pathExists [] (resolvedKey "u" "f") = false ∧
    (chat [] "u" "f" "" eqZero llmEcho).1 ≠ Except.error ⟨404, notIndexedMsg "f"⟩ := by
  decide

/-- C6 (amended): every chat request with a nonempty question against a
key whose resolved index path does not exist answers the 404 "not indexed"
signal, and makes no embedding-provider or generation-provider call (its
provider-call trace is empty). -/
theorem c6_unindexed_404_no_provider_calls (fs : FS) (user folder query : String)
    (embedQ : String → List Int) (llm : List Char → String)
    (hq : query ≠ "") (hex : pathExists fs (resolvedKey user folder) = false) :
    chat fs user folder query embedQ llm = (Except.error ⟨404, notIndexedMsg folder⟩, []) := by
  simp [chat, hq, hex]

/-- C6 witness: the 404-and-no-calls behaviour at a concrete unindexed
request with a nonempty question. -/
theorem c6_witness :
    ("hi" : String) ≠ "" ∧ pathExists [] (resolvedKey "u" "f") = false ∧
    chat [] "u" "f" "hi" eqZero llmEcho = (Except.error ⟨404, notIndexedMsg "f"⟩, []) :=
  ⟨by decide, by decide,
    c6_unindexed_404_no_provider_calls [] "u" "f" "hi" eqZero llmEcho (by decide) (by decide)⟩

/-- C7 counterexample: the splitter falls through to a harder split on a
piece of exactly 1500 characters — a piece whose length does not exceed
max_size. The guard in the code is `len(s) < chunk_size`, so equality also
recurses; the claim's "only when the current granularity still exceeds
max_size" is therefore false at this input. -/
theorem c7_counterexample :
    c7piece ∈ recursedPieces serverSplitter.chunkSize serverSplitter.separators c7text ∧
    c7piece.length = 1500 ∧
    ¬ (serverSplitter.chunkSize < c7piece.length) :=
  ⟨c7_mem, by decide, by decide⟩

/-- C7 (amended): the chunker is configured with chunk size 1500, overlap
300 and the separator priority list paragraph break, line break, sentence
end, word boundary, character boundary; it falls through to a harder split
only on pieces whose length is at least max_size (1500 characters or
more). -/
theorem c7_chunker_config_and_fallthrough :
    serverSplitter.chunkSize = 1500 ∧
    serverSplitter.chunkOverlap = 300 ∧
    serverSplitter.separators = [['\n', '\n'], ['\n'], ['.', ' '], [' '], []] ∧
    (∀ text p, p ∈ recursedPieces serverSplitter.chunkSize serverSplitter.separators text →
      serverSplitter.chunkSize ≤ p.length) :=
  ⟨rfl, rfl, by decide, fun _ p hp => recursedF_ge _ _ _ _ p hp⟩

/-- C7 witness: the fall-through bound applied at the concrete recursion
event of c7text. -/
theorem c7_witness :
    c7piece ∈ recursedPieces serverSplitter.chunkSize serverSplitter.separators c7text ∧
    serverSplitter.chunkSize ≤ c7piece.length :=
  ⟨c7_mem, c7_chunker_config_and_fallthrough.2.2.2 c7text c7piece c7_mem⟩

/-- C8: retrieval is configured with k = 10 and fetch_k = 20 (fetch_k ≥ k),
behaves exactly as the spec's two-stage contract — top fetch_k candidates
by similarity, then the top k of those, most similar first, ties by
insertion order — and an empty index yields an empty retrieval result
rather than an error. -/
theorem c8_two_stage_retrieval :
    serverSearchKw = (10, 20) ∧
    serverSearchKw.1 ≤ serverSearchKw.2 ∧
    (∀ entries q, serverRetriever entries q = twoStageRetrieve 10 20 entries q) ∧
    (∀ q, serverRetriever [] q = []) := by
  refine ⟨rfl, by decide, ?_, ?_⟩
  · intro entries q
    simp [serverRetriever, similaritySearch, twoStageRetrieve, serverSearchKw, List.take_take]
  · intro q
    rfl

/-- C9: the generation provider is invoked with temperature 0, and the
rendered prompt contains the question, the retrieved chunk texts, the
answer-only-from-context instruction, and the fixed insufficiency
sentinel. -/
theorem c9_prompt_grounding_and_temperature :
    serverLLM.temperature = 0 ∧
    (∀ (chunks : List Chunk) (q : List Char),
      (∃ l r, renderPrompt (stuffContext chunks) q = l ++ q ++ r) ∧
      (∃ l r, renderPrompt (stuffContext chunks) q = l ++ onlyContextInstr.toList ++ r) ∧
      (∃ l r, renderPrompt (stuffContext chunks) q = l ++ sentinelText.toList ++ r)) ∧
    (∀ (chunks : List Chunk) (q : List Char) (c : Chunk), c ∈ chunks →
      ∃ l r, renderPrompt (stuffContext chunks) q = l ++ c.text ++ r) := by
  refine ⟨rfl, ?_, ?_⟩
  · intro chunks q
    refine ⟨⟨promptPre.toList ++ stuffContext chunks ++ promptMid.toList, promptPost, ?_⟩,
      ⟨promptPre.toList ++ stuffContext chunks ++ promptMid.toList ++ q ++ promptPost1.toList,
        promptPost2.toList ++ sentinelText.toList ++ promptPost3.toList, ?_⟩,
      ⟨promptPre.toList ++ stuffContext chunks ++ promptMid.toList ++ q ++ promptPost1.toList
          ++ onlyContextInstr.toList ++ promptPost2.toList, promptPost3.toList, ?_⟩⟩
    · simp [renderPrompt]
    · simp [renderPrompt, promptPost]
    · simp [renderPrompt, promptPost]
  · intro chunks q c hc
    obtain ⟨p, s, hp⟩ := mem_intercalateL ("\n\n".toList) (chunks.map Chunk.text) c.text
      (List.mem_map_of_mem Chunk.text hc)
    refine ⟨promptPre.toList ++ p, s ++ promptMid.toList ++ q ++ promptPost, ?_⟩
    have hp2 : intercalateL ['\n', '\n'] (List.map Chunk.text chunks) = p ++ c.text ++ s := hp
    simp [renderPrompt, stuffContext, hp2]

/-- C9 witness: the chunk-text inclusion instantiated at a concrete
retrieved chunk and question. -/
theorem c9_witness :
    wChunk ∈ [wChunk] ∧
    ∃ l r, renderPrompt (stuffContext [wChunk]) ("hi".toList) = l ++ wChunk.text ++ r :=
  ⟨by decide,
    c9_prompt_grounding_and_temperature.2.2 [wChunk] ("hi".toList) wChunk (by decide)⟩

/-- C10: every chat request with an empty question fails with the 400
"Query text is required" error, independently of the store (so before the
index-existence check or any index load), and with an empty provider-call
trace. -/
theorem c10_empty_query_400_before_any_work (fs : FS) (user folder : String)
    (embedQ : String → List Int) (llm : List Char → String) :
    chat fs user folder "" embedQ llm = (Except.error ⟨400, queryRequiredMsg⟩, []) := by
  simp [chat]

end PadhAI
